import Mathlib

/-!
# Verification of the `code2prompt.py` traversal / formatting / output pipeline

This file gives a shallow embedding of `src/code2prompt.py` and proves (or
refutes) the frozen specification claims about it.

Modelling conventions:

* The filesystem seen by `os.walk` is an inductive tree `Dir` of named
  directories and files.  A file's readability is part of the model:
  `content = .ok raw` means `open`+`read` succeeds and decodes, while
  `content = .error e` means reading raises an exception with message `e`
  (caught in `get_file_contents`).
* `pathlib.Path.match` (glob matching) and the parsed `.gitignore` predicate
  are external collaborators; they are passed in as function parameters
  (`matcher`, `gitignore`), exactly as the Python code treats them as opaque
  callables.
* The tokenizer (`tiktoken`), the Jinja2 renderer and the `git` subprocess
  are likewise external; they appear as function parameters `enc`, `render`
  and `runGit`.
* Strings are Lean `String`s (lists of characters); Python's `str` methods
  used by the code (`split`, `strip`, `join`, f-strings, truthiness of
  strings and of `None`) are translated explicitly.
-/

set_option maxHeartbeats 1000000
set_option linter.unusedVariables false

deriving instance DecidableEq for Except

namespace Code2Prompt

/-- `os.path.join root name` / `Path.__truediv__` for a single component. -/
def pjoin (a b : String) : String := a ++ "/" ++ b

/-- Joining a component onto a *relative* path: at the traversal root the
relative prefix is empty and `relative_to` yields just the name. -/
def rjoin (a b : String) : String := if a = "" then b else a ++ "/" ++ b

/-- `os.path.basename`. -/
def basename (p : String) : String := ((p.splitOn "/").getLast?).getD ""

/-- A regular file in the modelled filesystem.  `content = .ok raw` when the
file opens and decodes as text; `content = .error e` when reading raises an
exception whose message is `e`. -/
structure FileEnt where
  name : String
  content : Except String String
deriving Repr, DecidableEq

/-- A directory tree node: name, subdirectories, files (in listing order). -/
inductive Dir where
  | mk (name : String) (subdirs : List Dir) (files : List FileEnt)
deriving Repr

def Dir.name : Dir → String
  | .mk n _ _ => n

def Dir.subdirs : Dir → List Dir
  | .mk _ s _ => s

def Dir.files : Dir → List FileEnt
  | .mk _ _ f => f

/-- Split a character list at every `'\n'`, keeping the newline at the end of
each piece and dropping a final empty piece: the behaviour of Python's
`file.readlines()` on the file's text. -/
def splitKeepNl : List Char → List (List Char)
  | [] => []
  | c :: rest =>
    if c = '\n' then ['\n'] :: splitKeepNl rest
    else
      match splitKeepNl rest with
      | [] => [[c]]
      | l :: ls => (c :: l) :: ls

/-- Python `file.readlines()` on the decoded text `s`. -/
def pyReadlines (s : String) : List String :=
  (splitKeepNl s.data).map (fun cs => String.mk cs)

/-- Line numbering from `get_file_contents`:
`''.join(f"{idx+1}: {line}" for idx, line in enumerate(lines))`. -/
def numberContent (raw : String) : String :=
  String.join (((pyReadlines raw).enum).map
    (fun p => toString (p.1 + 1) ++ ": " ++ p.2))

/-- `pathlib.PurePath.suffix` of a final path component: the extension from
the last dot, empty when the name starts with its only dot or ends with it. -/
def pathSuffix (name : String) : String :=
  let cs := name.data
  match ((List.range cs.length).filter (fun i => cs.getD i ' ' = '.')).getLast? with
  | some i => if 0 < i ∧ i + 1 < cs.length then String.mk (cs.drop i) else ""
  | none => ""

/-- `get_file_contents(file_path, line_numbers)`: returns the content used for
formatting, plus the warning lines printed (the `except` branch prints
`f"Error reading {file_path}: {e}"` and returns `""`). -/
def get_file_contents (file_path : String) (f : FileEnt) (line_numbers : Bool) :
    String × List String :=
  match f.content with
  | .error e => ("", ["Error reading " ++ file_path ++ ": " ++ e])
  | .ok raw => (if line_numbers then numberContent raw else raw, [])

/-- The per-run filtering configuration used inside
`gather_project_files_content`: the opaque glob matcher, the parsed
`.gitignore` predicate (if any), the compiled pattern lists and the two
formatting flags. -/
structure WalkCfg where
  matcher : String → String → Bool
  gitignore : Option (String → Bool)
  excludes : List String
  includes : List String
  lineNumbers : Bool
  codeblock : Bool

/-- `gitignore and gitignore(path)`: `None` never matches. -/
def giHit (gi : Option (String → Bool)) (p : String) : Bool :=
  match gi with
  | none => false
  | some g => g p

/-- The file-filter guards of the inner loop (lines 67-74 of the source):
skip when the gitignore matches, skip when any exclude pattern matches, skip
when `includes` is nonempty and no include pattern matches; otherwise keep. -/
def fileSelected (cfg : WalkCfg) (filePath : String) : Bool :=
  if giHit cfg.gitignore filePath then false
  else if cfg.excludes.any (fun pat => cfg.matcher filePath pat) then false
  else if !cfg.includes.isEmpty
      && !(cfg.includes.any (fun pat => cfg.matcher filePath pat)) then false
  else true

/-- The two f-strings of lines 80 and 82 building `formatted_content`. -/
def formatContent (codeblock : Bool) (relativePath ext content : String) : String :=
  if codeblock then
    "### " ++ relativePath ++ "\n```" ++ ext ++ "\n" ++ content ++ "\n```\n"
  else
    "### " ++ relativePath ++ "\n" ++ content ++ "\n"

/-- One file record, as appended to `all_files`. -/
structure FileRecord where
  path : String
  content : String
  formatted_content : String
deriving Repr, DecidableEq

/-- The body of the file loop for one file: the filter guards, the read, the
Python truthiness test `if content:` and the record construction.  Returns
the (zero or one) records appended, and the warnings printed. -/
def processFile (cfg : WalkCfg) (fp rp : String) (f : FileEnt) :
    List FileRecord × List String :=
  let filePath := pjoin fp f.name
  if fileSelected cfg filePath then
    let relativePath := rjoin rp f.name
    let res := get_file_contents filePath f cfg.lineNumbers
    let content := res.1
    if content = "" then ([], res.2)
    else
      ([{ path := relativePath,
          content := content,
          formatted_content :=
            formatContent cfg.codeblock relativePath
              ((pathSuffix f.name).drop 1) content }], res.2)
  else ([], [])

/-- The file loop over one directory's listing. -/
def processFiles (cfg : WalkCfg) (fp rp : String) :
    List FileEnt → List FileRecord × List String
  | [] => ([], [])
  | f :: rest =>
    let r := processFile cfg fp rp f
    let rs := processFiles cfg fp rp rest
    (r.1 ++ rs.1, r.2 ++ rs.2)

mutual
/-- `os.walk` (top-down) combined with the loop body of
`gather_project_files_content`: emit the current directory's surviving file
records, then recurse into the subdirectories that survived the two pruning
passes (gitignore, then exclude patterns). -/
def walkDir (cfg : WalkCfg) (fp rp : String) : Dir → List FileRecord × List String
  | .mk _ subdirs files =>
    let own := processFiles cfg fp rp files
    let sub := walkDirs cfg fp rp subdirs
    (own.1 ++ sub.1, own.2 ++ sub.2)

/-- Recursion over the (already listed) subdirectories: a subdirectory whose
path matches the gitignore or an exclude pattern is removed from `dirs`
in place, so the walk never descends into it. -/
def walkDirs (cfg : WalkCfg) (fp rp : String) : List Dir → List FileRecord × List String
  | [] => ([], [])
  | d :: rest =>
    let dirPath := pjoin fp d.name
    if giHit cfg.gitignore dirPath then walkDirs cfg fp rp rest
    else if cfg.excludes.any (fun pat => cfg.matcher dirPath pat) then
      walkDirs cfg fp rp rest
    else
      let r := walkDir cfg (pjoin fp d.name) (rjoin rp d.name) d
      let rs := walkDirs cfg fp rp rest
      (r.1 ++ rs.1, r.2 ++ rs.2)
end

/-- Pattern compilation (lines 49-50):
`[p.strip() for p in patterns.split(',')] if patterns else []` — note that
both `None` and the empty string are falsy. -/
def compilePatterns : Option String → List String
  | none => []
  | some s => if s = "" then [] else (s.splitOn ",").map (fun p => p.trim)

/-- `gather_project_files_content`.  The root filesystem is an
`Option Dir`: `none` models a missing or unreadable root directory, for
which `os.walk` (with its default `onerror=None`) yields no triples at all,
so the function returns an empty list without raising. -/
def gather_project_files_content (matcher : String → String → Bool)
    (directory : String) (include_patterns exclude_patterns : Option String)
    (exclude_from_tree : Bool) (line_numbers codeblock : Bool)
    (gitignore : Option (String → Bool)) (fs : Option Dir) :
    List FileRecord × List String :=
  let includes := compilePatterns include_patterns
  let excludes := compilePatterns exclude_patterns
  let cfg : WalkCfg :=
    { matcher := matcher, gitignore := gitignore, excludes := excludes,
      includes := includes, lineNumbers := line_numbers, codeblock := codeblock }
  match fs with
  | none => ([], [])
  | some root => walkDir cfg directory "" root

/-- The process-wide interpreter state relevant to the diff collector: the
current working directory mutated by `os.chdir`. -/
structure ProcState where
  cwd : String
deriving Repr, DecidableEq

/-- `get_git_diff(directory, staged, branches)`.  The first line of the body
is `os.chdir(directory)`: the process state is replaced before the
subprocess runs, and never restored.  `runGit` is the external `git`
subprocess, reading the (mutated) process state; its text output becomes
`diff_output`.  With a truthy `branches` value that does not split into
exactly two names, the function prints an error and returns the initial
empty `diff_output`. -/
def get_git_diff (runGit : ProcState → List String → String)
    (directory : String) (staged : Bool) (branches : Option String)
    (st : ProcState) : String × ProcState :=
  let st' : ProcState := { cwd := directory }
  let bs := branches.getD ""
  if bs ≠ "" then
    match bs.splitOn "," with
    | [b1, b2] => (runGit st' ["git", "diff", b1.trim, b2.trim], st')
    | _ => ("", st')
  else if staged then (runGit st' ["git", "diff", "--staged"], st')
  else (runGit st' ["git", "diff"], st')

/-- The context map handed to the template renderer (lines 225-230). -/
structure Context where
  directory_name : String
  files : List FileRecord
  git_diff_output : String
  token_count : Nat
deriving Repr

/-- The JSON envelope printed under `--json` (lines 238-245). -/
structure JsonEnvelope where
  prompt : String
  directory_name : String
  token_count : Nat
  model_info : String
  files : List String
deriving Repr, DecidableEq

/-- Which output side effects the dispatch block (lines 236-256) performs. -/
structure OutputActions where
  printedJson : Bool
  printedStdout : Bool
  wroteFile : Bool
  copiedClipboard : Bool
deriving Repr, DecidableEq

/-- The output dispatch of `main`:
`if output_json: print(json) else: print(output_content)`, then
independently `if output_path: save_to_file(...)` and
`if copy: copy_to_clipboard(...)` (which only copies when `pyperclip`
imported).  Python truthiness: `output_path` of `None` or `""` is falsy. -/
def dispatchOutputs (output_json : Bool) (output_path : Option String)
    (copy clipboardAvailable : Bool) : OutputActions :=
  { printedJson := output_json,
    printedStdout := !output_json,
    wroteFile := output_path.getD "" ≠ "",
    copiedClipboard := copy && clipboardAvailable }

/-- How many of the three primary output channels (stdout print, file write,
JSON envelope) a dispatch performs. -/
def primaryChannelCount (a : OutputActions) : Nat :=
  (if a.printedJson then 1 else 0) + (if a.printedStdout then 1 else 0)
    + (if a.wroteFile then 1 else 0)

/-- The parsed command-line arguments of `main` (argparse namespace). -/
structure Args where
  directory : String
  template : Option String
  include_patterns : Option String
  exclude_patterns : Option String
  exclude_from_tree : Bool
  tokens : Bool
  encoding : String
  output : Option String
  json : Bool
  diff : Bool
  git_diff_branch : Option String
  git_log_branch : Option String
  line_number : Bool
  no_codeblock : Bool
  copy : Bool

/-- Everything observable about one invocation of `main`: the gathered
records and warnings, the token count (computed once, line 223), the context
map, the rendered output, the JSON envelope if printed, the token total
printed under `--tokens`, the output side effects, and the process exit
status.  `main` contains no `raise`/`sys.exit` on its normal paths (missing
roots are swallowed by `os.walk`, file errors by `get_file_contents`), so a
completed run exits 0. -/
structure MainResult where
  files_data : List FileRecord
  warnings : List String
  token_count : Nat
  context : Context
  output_content : String
  json_output : Option JsonEnvelope
  reported_tokens : Option Nat
  actions : OutputActions
  exitCode : Nat

/-- The body of `main` after argument parsing.  External collaborators are
parameters: `matcher` (pathlib glob matching), `gitignore` (the predicate
`parse_gitignore` produced, `none` when no `.gitignore` exists), `runGit`
(the git subprocess), `enc` (the tiktoken encoder selected by
`args.encoding`), `render` (the Jinja2 template rendering, for the loaded or
default template), and `clipboardAvailable` (whether `pyperclip` imported).
`fs` is the root directory tree, `none` when the root is missing or
unreadable.  Returns the run's observables and the final process state. -/
def runMain (matcher : String → String → Bool)
    (gitignore : Option (String → Bool))
    (runGit : ProcState → List String → String)
    (enc : String → Nat) (render : Context → String)
    (clipboardAvailable : Bool) (args : Args) (fs : Option Dir)
    (st : ProcState) : MainResult × ProcState :=
  let codeblock := !args.no_codeblock
  let gres := gather_project_files_content matcher args.directory
    args.include_patterns args.exclude_patterns args.exclude_from_tree
    args.line_number codeblock gitignore fs
  let files_data := gres.1
  let needDiff := args.diff || args.git_diff_branch.getD "" ≠ ""
    || args.git_log_branch.getD "" ≠ ""
  let dres := if needDiff then
      get_git_diff runGit args.directory args.diff args.git_diff_branch st
    else ("", st)
  let all_formatted_content :=
    String.intercalate "\n" (files_data.map (fun f => f.formatted_content))
  let full_prompt := all_formatted_content
  let token_count := enc full_prompt
  let context : Context :=
    { directory_name := basename args.directory, files := files_data,
      git_diff_output := dres.1, token_count := token_count }
  let output_content := render context
  ({ files_data := files_data,
     warnings := gres.2,
     token_count := token_count,
     context := context,
     output_content := output_content,
     json_output := if args.json then
         some { prompt := output_content,
                directory_name := context.directory_name,
                token_count := context.token_count,
                model_info := "ChatGPT models, text-embedding-ada-002",
                files := files_data.map (fun f => f.path) }
       else none,
     reported_tokens := if args.tokens then some token_count else none,
     actions := dispatchOutputs args.json args.output args.copy clipboardAvailable,
     exitCode := 0 }, dres.2)

/-! ### Fence stripping (for the round-trip property of the formatter)

`stripFences` removes the opening fence-marker line (the line directly after
the heading) and the closing fence-marker line (the next-to-last line) from
a formatted record. -/

/-- Split a character list at every `'\n'`, dropping the separators:
`"a\nb"` becomes `["a", "b"]`, and the empty text is the single empty
line. -/
def splitNl : List Char → List (List Char)
  | [] => [[]]
  | c :: rest =>
    if c = '\n' then [] :: splitNl rest
    else
      match splitNl rest with
      | [] => [[c]]
      | l :: ls => (c :: l) :: ls

/-- Rejoin lines with `'\n'`: the inverse of `splitNl`. -/
def joinNl : List (List Char) → List Char
  | [] => []
  | [l] => l
  | l :: l' :: ls => l ++ '\n' :: joinNl (l' :: ls)

/-- Strip the opening and closing fence-marker lines from a
`codeblock=true` formatted record: the opening fence is the line after the
heading (index 1) and the closing fence is the next-to-last line. -/
def stripFences (s : String) : String :=
  let ls := splitNl s.data
  let ls1 := ls.eraseIdx 1
  String.mk (joinNl (ls1.eraseIdx (ls1.length - 2)))

/-! ## Shared lemmas about the file loop and the walk -/

theorem processFiles_append (cfg : WalkCfg) (fp rp : String)
    (as bs : List FileEnt) :
    processFiles cfg fp rp (as ++ bs)
      = ((processFiles cfg fp rp as).1 ++ (processFiles cfg fp rp bs).1,
         (processFiles cfg fp rp as).2 ++ (processFiles cfg fp rp bs).2) := by
  induction as with
  | nil => simp [processFiles]
  | cons f t ih => simp [processFiles, ih]

/-- The combined pruning condition for a subdirectory (lines 56-61): its
path matches the gitignore predicate or some exclude pattern. -/
def dirPruned (cfg : WalkCfg) (dirPath : String) : Bool :=
  giHit cfg.gitignore dirPath
    || cfg.excludes.any (fun pat => cfg.matcher dirPath pat)

theorem walkDirs_pruned (cfg : WalkCfg) (fp rp : String)
    (pre post : List Dir) (d : Dir)
    (h : dirPruned cfg (pjoin fp d.name) = true) :
    walkDirs cfg fp rp (pre ++ d :: post) = walkDirs cfg fp rp (pre ++ post) := by
  induction pre with
  | nil =>
    simp only [List.nil_append]
    cases hgi : giHit cfg.gitignore (pjoin fp d.name)
    · have hex : cfg.excludes.any (fun pat => cfg.matcher (pjoin fp d.name) pat)
          = true := by
        simpa [dirPruned, hgi] using h
      simp [walkDirs, hgi, hex]
    · simp [walkDirs, hgi]
  | cons a t ih =>
    simp only [List.cons_append]
    by_cases hga : giHit cfg.gitignore (pjoin fp a.name) = true
    · simp [walkDirs, hga, ih]
    · by_cases hea : cfg.excludes.any (fun pat => cfg.matcher (pjoin fp a.name) pat)
          = true
      · simp [walkDirs, hga, hea, ih]
      · simp [walkDirs, hga, hea, ih]

/-! ## Claim C2: pruning is total -/

/-- C2: when a subdirectory `d` of a directory is pruned (its path matches
the gitignore rule or an exclude pattern), the walk of that directory
produces exactly what it would produce were `d` absent from the listing: it
does not recurse into `d`, and no descendant record or warning from `d`'s
subtree is evaluated or emitted. -/
theorem walkDir_pruned_subtree (cfg : WalkCfg) (fp rp n : String)
    (pre post : List Dir) (files : List FileEnt) (d : Dir)
    (h : dirPruned cfg (pjoin fp d.name) = true) :
    walkDir cfg fp rp (.mk n (pre ++ d :: post) files)
      = walkDir cfg fp rp (.mk n (pre ++ post) files) := by
  have hw := walkDirs_pruned cfg fp rp pre post d h
  simp [walkDir, hw]

/-- A concrete configuration excluding the directory path `root/vendor`. -/
def cfgC2 : WalkCfg :=
  { matcher := fun p pat => p == pat, gitignore := none,
    excludes := ["root/vendor"], includes := [],
    lineNumbers := false, codeblock := true }

/-- C2 witness: a pruned `vendor` subdirectory with a file inside
contributes nothing — the walk output equals the walk of the tree without
it, by `walkDir_pruned_subtree`. -/
theorem walkDir_pruned_subtree_w :
    dirPruned cfgC2 (pjoin "root" (Dir.mk "vendor" [] [⟨"v.go", .ok "V"⟩]).name)
      = true
    ∧ walkDir cfgC2 "root" ""
        (.mk "root" [Dir.mk "vendor" [] [⟨"v.go", .ok "V"⟩]] [⟨"main.go", .ok "M"⟩])
      = walkDir cfgC2 "root" "" (.mk "root" [] [⟨"main.go", .ok "M"⟩]) :=
  ⟨by decide,
    walkDir_pruned_subtree cfgC2 "root" "" "root" [] [] [⟨"main.go", .ok "M"⟩]
      (Dir.mk "vendor" [] [⟨"v.go", .ok "V"⟩]) (by decide)⟩

/-! ## Claim C6: unreadable files -/

/-- C6: a selected file whose content cannot be read or decoded is treated
as empty content: it produces no record (it is excluded from the formatted
sequence), a warning naming the file is surfaced, and the rest of the run is
unaffected — the records of every other file are exactly those of the same
listing without the failing file, with the warning inserted at the failing
file's position. -/
theorem unreadable_file_skipped (cfg : WalkCfg) (fp rp : String)
    (f : FileEnt) (e : String)
    (hsel : fileSelected cfg (pjoin fp f.name) = true)
    (herr : f.content = .error e) :
    processFile cfg fp rp f
      = ([], ["Error reading " ++ pjoin fp f.name ++ ": " ++ e])
    ∧ ∀ pre post : List FileEnt,
        (processFiles cfg fp rp (pre ++ f :: post)).1
          = (processFiles cfg fp rp (pre ++ post)).1
        ∧ (processFiles cfg fp rp (pre ++ f :: post)).2
          = (processFiles cfg fp rp pre).2
            ++ ("Error reading " ++ pjoin fp f.name ++ ": " ++ e)
              :: (processFiles cfg fp rp post).2 := by
  have h1 : processFile cfg fp rp f
      = ([], ["Error reading " ++ pjoin fp f.name ++ ": " ++ e]) := by
    simp [processFile, hsel, get_file_contents, herr, String.isEmpty]
  refine ⟨h1, ?_⟩
  intro pre post
  constructor
  · simp [processFiles_append, processFiles, h1]
  · simp [processFiles_append, processFiles, h1]

/-- A concrete configuration selecting everything (no patterns). -/
def cfgC6 : WalkCfg :=
  { matcher := fun _ _ => false, gitignore := none, excludes := [],
    includes := [], lineNumbers := false, codeblock := true }

/-- C6 witness: an unreadable file under `root` yields no record and one
warning, by `unreadable_file_skipped`. -/
theorem unreadable_file_skipped_w :
    fileSelected cfgC6 (pjoin "root" "bad.txt") = true
    ∧ processFile cfgC6 "root" "" ⟨"bad.txt", .error "boom"⟩
        = ([], ["Error reading " ++ pjoin "root" "bad.txt" ++ ": " ++ "boom"]) :=
  ⟨by decide,
    (unreadable_file_skipped cfgC6 "root" "" ⟨"bad.txt", .error "boom"⟩ "boom"
      (by decide) rfl).1⟩

/-! ## Claim C10: empty files are silently omitted -/

/-- C10: a file that passes all filters and reads successfully as the empty
string is silently omitted: it yields no record and no warning, and the file
loop behaves exactly as if the file were absent — hence the file appears in
no downstream structure (formatted output, context `files`, JSON file list),
all of which are functions of the records. -/
theorem empty_file_silently_omitted (cfg : WalkCfg) (fp rp : String)
    (f : FileEnt)
    (hsel : fileSelected cfg (pjoin fp f.name) = true)
    (hempty : f.content = .ok "") :
    processFile cfg fp rp f = ([], [])
    ∧ ∀ pre post : List FileEnt,
        processFiles cfg fp rp (pre ++ f :: post)
          = processFiles cfg fp rp (pre ++ post) := by
  have hnum : numberContent "" = "" := rfl
  have h1 : processFile cfg fp rp f = ([], []) := by
    cases hln : cfg.lineNumbers <;>
      simp [processFile, hsel, get_file_contents, hempty, hln, hnum,
        String.isEmpty]
  refine ⟨h1, ?_⟩
  intro pre post
  simp [processFiles_append, processFiles, h1]

/-- A concrete configuration selecting everything (no patterns), with line
numbering on. -/
def cfgC10 : WalkCfg :=
  { matcher := fun _ _ => false, gitignore := none, excludes := [],
    includes := [], lineNumbers := true, codeblock := true }

/-- C10 witness: an empty readable file between other files changes nothing
in the file loop's output, by `empty_file_silently_omitted`. -/
theorem empty_file_silently_omitted_w :
    fileSelected cfgC10 (pjoin "root" "empty.txt") = true
    ∧ processFile cfgC10 "root" "" ⟨"empty.txt", .ok ""⟩ = ([], [])
    ∧ processFiles cfgC10 "root" ""
        [⟨"a.txt", .ok "hi"⟩, ⟨"empty.txt", .ok ""⟩]
      = processFiles cfgC10 "root" "" [⟨"a.txt", .ok "hi"⟩] :=
  ⟨by decide,
    (empty_file_silently_omitted cfgC10 "root" "" ⟨"empty.txt", .ok ""⟩
      (by decide) rfl).1,
    (empty_file_silently_omitted cfgC10 "root" "" ⟨"empty.txt", .ok ""⟩
      (by decide) rfl).2 [⟨"a.txt", .ok "hi"⟩] []⟩

/-! ## Claim C1: include/exclude selection logic -/

/-- C1: a file path encountered during traversal is selected iff
(the include list is empty or some include pattern matches) and no exclude
pattern matches; any exclude match vetoes selection regardless of the
include patterns and of the gitignore predicate; an empty include list
selects everything not excluded.  (The gitignore predicate is a separate,
prior filter; the include/exclude biconditional is stated for a run without
a `.gitignore`.) -/
theorem fileSelected_include_exclude (m : String → String → Bool)
    (ex inc : List String) (ln cb : Bool) (p : String) :
    (∀ gi, ex.any (fun pat => m p pat) = true →
        fileSelected ⟨m, gi, ex, inc, ln, cb⟩ p = false)
    ∧ fileSelected ⟨m, none, ex, inc, ln, cb⟩ p
        = ((inc.isEmpty || inc.any (fun pat => m p pat))
            && !(ex.any (fun pat => m p pat)))
    ∧ (inc = [] → fileSelected ⟨m, none, ex, inc, ln, cb⟩ p
        = !(ex.any (fun pat => m p pat))) := by
  refine ⟨?_, ?_, ?_⟩
  · intro gi h
    cases hgi : giHit gi p <;> simp [fileSelected, hgi, h]
  · cases hex : ex.any (fun pat => m p pat) <;>
      cases hinc : inc.isEmpty <;>
        cases hany : inc.any (fun pat => m p pat) <;>
          simp [fileSelected, giHit, hex, hinc, hany]
  · intro h
    subst h
    cases hex : ex.any (fun pat => m p pat) <;>
      simp [fileSelected, giHit, hex]

/-- C1 witness: a path matched by both an include and an exclude pattern is
not selected (exclude wins), instantiating `fileSelected_include_exclude`. -/
theorem fileSelected_include_exclude_w :
    (["a.md"].any (fun pat => (fun (x y : String) => x == y) "a.md" pat) = true)
    ∧ fileSelected ⟨fun x y => x == y, some fun _ => false, ["a.md"], ["a.md"],
        false, true⟩ "a.md" = false :=
  ⟨by decide,
    (fileSelected_include_exclude (fun x y => x == y) ["a.md"] ["a.md"]
      false true "a.md").1 (some fun _ => false) (by decide)⟩

/-! ## Claim C3: token counting -/

/-- C3 (amended): the token count is computed exactly once, over the
newline-joined concatenation of the formatted file records in traversal
order; the context handed to the renderer embeds that same count, and the
`--tokens` report prints that same count.  No recomputation over the
rendered output text ever happens. -/
theorem token_count_single (matcher : String → String → Bool)
    (gitignore : Option (String → Bool)) (runGit : ProcState → List String → String)
    (enc : String → Nat) (render : Context → String) (clip : Bool)
    (args : Args) (fs : Option Dir) (st : ProcState) :
    (runMain matcher gitignore runGit enc render clip args fs st).1.token_count
      = enc (String.intercalate "\n"
          (((runMain matcher gitignore runGit enc render clip args fs st).1.files_data).map
            (fun f => f.formatted_content)))
    ∧ (runMain matcher gitignore runGit enc render clip args fs st).1.context.token_count
      = (runMain matcher gitignore runGit enc render clip args fs st).1.token_count
    ∧ (runMain matcher gitignore runGit enc render clip args fs st).1.reported_tokens
      = (if args.tokens then
          some (runMain matcher gitignore runGit enc render clip args fs st).1.token_count
        else none) :=
  ⟨rfl, rfl, rfl⟩

/-- A concrete run used to refute the recomputation part of C3: the
tokenizer is `String.length`, the renderer returns `"X"`, the root is
missing (so the joined formatted content is empty). -/
def c3run : MainResult :=
  (runMain (fun _ _ => false) none (fun _ _ => "") String.length (fun _ => "X")
    false
    { directory := "proj", template := none, include_patterns := none,
      exclude_patterns := none, exclude_from_tree := false, tokens := true,
      encoding := "cl100k_base", output := none, json := false, diff := false,
      git_diff_branch := none, git_log_branch := none, line_number := false,
      no_codeblock := false, copy := false }
    none ⟨"/home/user"⟩).1

/-- C3 counterexample: the finally reported token total is *not* recomputed
over the fully rendered output text — here the reported total is the count
over the joined file records (0 tokens) while the rendered output has
1 token under the same tokenizer. -/
theorem token_count_not_recomputed :
    c3run.reported_tokens = some c3run.token_count
    ∧ c3run.token_count ≠ String.length c3run.output_content := by
  constructor
  · rfl
  · decide

/-! ## Claim C4: missing root directory -/

/-- C4 (amended): a missing or unreadable root directory is silently
swallowed by `os.walk` (default `onerror=None`): the gather step returns an
empty selection and no warnings, and the run completes normally with exit
status 0 — no `TraversalError` exists in the code. -/
theorem missing_root_empty_success (matcher : String → String → Bool)
    (gitignore : Option (String → Bool)) (runGit : ProcState → List String → String)
    (enc : String → Nat) (render : Context → String) (clip : Bool)
    (args : Args) (st : ProcState) :
    (runMain matcher gitignore runGit enc render clip args none st).1.files_data = []
    ∧ (runMain matcher gitignore runGit enc render clip args none st).1.exitCode = 0
    ∧ gather_project_files_content matcher args.directory args.include_patterns
        args.exclude_patterns args.exclude_from_tree args.line_number
        (!args.no_codeblock) gitignore none = ([], []) :=
  ⟨rfl, rfl, rfl⟩

/-- A concrete run on a missing root used to refute C4 as stated. -/
def c4run : MainResult :=
  (runMain (fun _ _ => false) none (fun _ _ => "") (fun s => s.length)
    (fun c => "# Codebase: " ++ c.directory_name) false
    { directory := "/no/such/dir", template := none, include_patterns := none,
      exclude_patterns := none, exclude_from_tree := false, tokens := false,
      encoding := "cl100k_base", output := none, json := false, diff := false,
      git_diff_branch := none, git_log_branch := none, line_number := false,
      no_codeblock := false, copy := false }
    none ⟨"/home/user"⟩).1

/-- C4 counterexample: with the root directory missing, the run does not
fail — it succeeds with an empty selection and exit status 0, contradicting
the claimed fatal `TraversalError` with nonzero exit status. -/
theorem missing_root_no_error :
    c4run.exitCode = 0 ∧ c4run.files_data = [] := by
  constructor
  · rfl
  · rfl

/-! ## Claim C5: output channels -/

/-- C5 (amended): printing to stdout and emitting the JSON envelope are
mutually exclusive (selected by `--json`), but writing to the output file is
an independent additional channel: whenever `--output` is given the run
performs two primary output channels (the file write on top of stdout or
JSON).  Clipboard copying remains an optional extra side effect. -/
theorem dispatchOutputs_channels (output_json : Bool) (output_path : Option String)
    (copy clipboardAvailable : Bool) :
    primaryChannelCount (dispatchOutputs output_json output_path copy clipboardAvailable)
      = (if output_path.getD "" ≠ "" then 2 else 1)
    ∧ (dispatchOutputs output_json output_path copy clipboardAvailable).printedJson
        = output_json
    ∧ (dispatchOutputs output_json output_path copy clipboardAvailable).printedStdout
        = !output_json
    ∧ (dispatchOutputs output_json output_path copy clipboardAvailable).copiedClipboard
        = (copy && clipboardAvailable) := by
  by_cases h : output_path.getD "" = "" <;>
    cases output_json <;>
      simp [dispatchOutputs, primaryChannelCount, h]

/-- A concrete run with `--output prompt.md` used to refute the exclusivity
part of C5. -/
def c5run : MainResult :=
  (runMain (fun _ _ => false) none (fun _ _ => "") (fun s => s.length)
    (fun _ => "out") false
    { directory := "proj", template := none, include_patterns := none,
      exclude_patterns := none, exclude_from_tree := false, tokens := false,
      encoding := "cl100k_base", output := some "prompt.md", json := false,
      diff := false, git_diff_branch := none, git_log_branch := none,
      line_number := false, no_codeblock := false, copy := false }
    none ⟨"/home/user"⟩).1

/-- C5 counterexample: a run with `--output` (and without `--json`) both
prints the rendered text to stdout and writes it to the output file — two
primary output channels in one run, contradicting the claimed exclusivity. -/
theorem two_primary_channels :
    c5run.actions.printedStdout = true ∧ c5run.actions.wroteFile = true
    ∧ primaryChannelCount c5run.actions = 2 := by
  refine ⟨rfl, ?_, ?_⟩ <;> decide

/-! ## Claim C9: diff collection and the working directory -/

/-- C9 (amended): `get_git_diff` mutates process-wide state: it sets the
process working directory to the diff directory via `os.chdir` before
invoking git, and never restores it — after the call the process state is
the diff directory, whatever it was before. -/
theorem get_git_diff_chdir (runGit : ProcState → List String → String)
    (directory : String) (staged : Bool) (branches : Option String)
    (st : ProcState) :
    (get_git_diff runGit directory staged branches st).2 = { cwd := directory } := by
  unfold get_git_diff
  dsimp only
  split
  · split <;> rfl
  · split <;> rfl

/-- C9 counterexample: after collecting a diff for `/repo` from a process
whose working directory was `/home/user`, the process working directory is
`/repo`, not the original one — the diff call mutates and does not restore
the process-wide working directory. -/
theorem get_git_diff_cwd_mutated :
    ((get_git_diff (fun _ _ => "") "/repo" false none ⟨"/home/user"⟩).2).cwd = "/repo"
    ∧ ((get_git_diff (fun _ _ => "") "/repo" false none ⟨"/home/user"⟩).2).cwd
        ≠ ("/home/user" : String) := by
  constructor
  · rfl
  · decide

/-! ## Shared lemmas about strings as character lists -/

theorem data_append (s t : String) : (s ++ t).data = s.data ++ t.data := by
  cases s
  cases t
  rfl

theorem mk_data (s : String) : String.mk s.data = s := by
  cases s
  rfl

theorem eraseIdx_append_right {α : Type _} (X Y : List α) (n : Nat)
    (h : X.length ≤ n) :
    (X ++ Y).eraseIdx n = X ++ Y.eraseIdx (n - X.length) := by
  induction X generalizing n with
  | nil => simp
  | cons x t ih =>
    cases n with
    | zero => simp at h
    | succ m =>
      have ih' := ih m (Nat.le_of_succ_le_succ h)
      simp only [List.cons_append, List.eraseIdx, List.length_cons,
        Nat.succ_sub_succ, List.append_eq] at ih' ⊢
      rw [ih']

theorem splitNl_ne_nil (cs : List Char) : splitNl cs ≠ [] := by
  induction cs with
  | nil => simp [splitNl]
  | cons c rest ih =>
    by_cases h : c = '\n'
    · simp [splitNl, h]
    · simp only [splitNl, h, if_false]
      cases hs : splitNl rest with
      | nil => simp
      | cons l ls => simp

theorem splitNl_append_nl (as bs : List Char) :
    splitNl (as ++ '\n' :: bs) = splitNl as ++ splitNl bs := by
  induction as with
  | nil => simp [splitNl]
  | cons c rest ih =>
    by_cases h : c = '\n'
    · subst h
      simp [splitNl, ih]
    · obtain ⟨l, ls, hls⟩ := List.exists_cons_of_ne_nil (splitNl_ne_nil rest)
      simp only [List.cons_append, splitNl, h, if_false, List.append_eq]
      rw [ih, hls, List.cons_append]
      simp

theorem splitNl_no_nl (as : List Char) (h : '\n' ∉ as) : splitNl as = [as] := by
  induction as with
  | nil => simp [splitNl]
  | cons c rest ih =>
    have hc : ¬ c = '\n' := by
      intro e
      exact h (by simp [e])
    have hr : '\n' ∉ rest := fun hm => h (List.mem_cons_of_mem _ hm)
    simp [splitNl, hc, ih hr]

theorem joinNl_single (l : List Char) : joinNl [l] = l := rfl

theorem joinNl_cons2 (l l' : List Char) (ls : List (List Char)) :
    joinNl (l :: l' :: ls) = l ++ '\n' :: joinNl (l' :: ls) := rfl

theorem joinNl_splitNl (cs : List Char) : joinNl (splitNl cs) = cs := by
  induction cs with
  | nil => simp [splitNl, joinNl]
  | cons c rest ih =>
    obtain ⟨l, ls, hls⟩ := List.exists_cons_of_ne_nil (splitNl_ne_nil rest)
    by_cases h : c = '\n'
    · subst h
      simp only [splitNl, hls, eq_self_iff_true, if_true]
      rw [joinNl_cons2, ← hls, ih]
      rfl
    · simp only [splitNl, h, if_false, hls]
      rw [hls] at ih
      cases ls with
      | nil =>
        simp only [joinNl_single] at ih ⊢
        rw [ih]
      | cons l' ls' =>
        rw [joinNl_cons2]
        rw [joinNl_cons2] at ih
        simp [← ih]

theorem joinNl_append (as bs : List (List Char)) (ha : as ≠ []) (hb : bs ≠ []) :
    joinNl (as ++ bs) = joinNl as ++ '\n' :: joinNl bs := by
  induction as with
  | nil => exact absurd rfl ha
  | cons l t ih =>
    cases t with
    | nil =>
      obtain ⟨b, bs', hbs⟩ := List.exists_cons_of_ne_nil hb
      subst hbs
      rw [List.singleton_append, joinNl_cons2, joinNl_single]
    | cons l' t' =>
      have ih' := ih (by simp)
      simp only [List.cons_append] at ih' ⊢
      rw [joinNl_cons2, ih', joinNl_cons2]
      simp

theorem splitNl_format (A B C D : List Char)
    (hA : '\n' ∉ A) (hB : '\n' ∉ B) (hD : '\n' ∉ D) :
    splitNl (A ++ '\n' :: (B ++ '\n' :: (C ++ '\n' :: (D ++ '\n' :: []))))
      = [A, B] ++ splitNl C ++ [D, []] := by
  rw [splitNl_append_nl, splitNl_append_nl, splitNl_append_nl, splitNl_append_nl,
    splitNl_no_nl _ hA, splitNl_no_nl _ hB, splitNl_no_nl _ hD]
  simp [splitNl]

/-! ## Claim C7: fence-stripping round trip -/

/-- C7: for any relative path and raw content (with the path and the
extension label free of newlines, as real path components are), formatting
with `codeblock=true` and then stripping the opening and closing fence
marker lines yields exactly the text of formatting the same path and content
with `codeblock=false` — the heading line and the content survive
unchanged. -/
theorem fence_roundtrip (relativePath ext content : String)
    (hrel : '\n' ∉ relativePath.data) (hext : '\n' ∉ ext.data) :
    stripFences (formatContent true relativePath ext content)
      = formatContent false relativePath ext content := by
  have hA : '\n' ∉ ("### ".data ++ relativePath.data) := by
    intro hm
    rcases List.mem_append.1 hm with hm | hm
    · revert hm
      decide
    · exact hrel hm
  have hB : '\n' ∉ ("```".data ++ ext.data) := by
    intro hm
    rcases List.mem_append.1 hm with hm | hm
    · revert hm
      decide
    · exact hext hm
  have hD : '\n' ∉ ['`', '`', '`'] := by decide
  have d1 : "### ".data = ['#', '#', '#', ' '] := rfl
  have d2 : "\n```".data = ['\n', '`', '`', '`'] := rfl
  have d3 : "\n".data = ['\n'] := rfl
  have d4 : "\n```\n".data = ['\n', '`', '`', '`', '\n'] := rfl
  have hdata : (formatContent true relativePath ext content).data
      = ("### ".data ++ relativePath.data) ++ '\n' ::
          (("```".data ++ ext.data) ++ '\n' ::
            (content.data ++ '\n' :: (['`', '`', '`'] ++ '\n' :: []))) := by
    simp [formatContent, data_append, d1, d2, d3, d4, List.append_assoc]
  have hsplit : splitNl (formatContent true relativePath ext content).data
      = [("### ".data ++ relativePath.data), ("```".data ++ ext.data)]
          ++ splitNl content.data ++ [['`', '`', '`'], []] := by
    rw [hdata, splitNl_format _ _ _ _ hA hB hD]
  have hstep : stripFences (formatContent true relativePath ext content)
      = String.mk (joinNl
          ((((splitNl (formatContent true relativePath ext content).data).eraseIdx 1)).eraseIdx
            ((((splitNl (formatContent true relativePath ext content).data).eraseIdx 1)).length - 2))) :=
    rfl
  rw [hstep, hsplit]
  set P := splitNl content.data with hP
  have hPne : P ≠ [] := splitNl_ne_nil _
  have h1 : (([("### ".data ++ relativePath.data), ("```".data ++ ext.data)]
        ++ P ++ [['`', '`', '`'], []]).eraseIdx 1)
      = ("### ".data ++ relativePath.data) :: (P ++ [['`', '`', '`'], []]) := by
    simp [List.eraseIdx]
  rw [h1]
  have h2 : (("### ".data ++ relativePath.data) :: (P ++ [['`', '`', '`'], []])).length - 2
      = P.length + 1 := by
    simp [List.length_cons, List.length_append]
  rw [h2]
  have h3 : ("### ".data ++ relativePath.data) :: (P ++ [['`', '`', '`'], []])
      = ((("### ".data ++ relativePath.data) :: P) ++ [['`', '`', '`'], []]) := by
    simp
  rw [h3, eraseIdx_append_right _ _ _ (by simp)]
  have h4 : P.length + 1 - (("### ".data ++ relativePath.data) :: P).length = 0 := by
    simp
  rw [h4]
  have h5 : ([['`', '`', '`'], []].eraseIdx 0 : List (List Char)) = [[]] := rfl
  rw [h5]
  rw [joinNl_append _ _ (by simp) (by simp)]
  rw [show ((("### ".data ++ relativePath.data) :: P)) = [("### ".data ++ relativePath.data)] ++ P by simp]
  rw [joinNl_append _ _ (by simp) hPne]
  rw [hP, joinNl_splitNl]
  have hrhs : (formatContent false relativePath ext content).data
      = "### ".data ++ relativePath.data ++ '\n' :: content.data ++ ['\n'] := by
    simp [formatContent, data_append, d1, d3, List.append_assoc]
  have hfin : ∀ (l : List Char) (s : String), l = s.data → String.mk l = s := by
    intro l s hl
    rw [hl, mk_data]
  apply hfin
  rw [hrhs]
  simp [joinNl_single, List.append_assoc]

/-- C7 witness: stripping the fences from the `codeblock=true` record of
`a.py` with two content lines recovers the `codeblock=false` record, by
`fence_roundtrip`. -/
theorem fence_roundtrip_w :
    ('\n' ∉ "a.py".data) ∧ ('\n' ∉ "py".data)
    ∧ stripFences (formatContent true "a.py" "py" "x = 1\ny = 2")
        = formatContent false "a.py" "py" "x = 1\ny = 2" :=
  ⟨by decide, by decide,
    fence_roundtrip "a.py" "py" "x = 1\ny = 2" (by decide) (by decide)⟩

/-! ## Lemmas about `readlines`-shaped line lists (for claim C8) -/

/-- A non-final `readlines` piece: nonempty, ends with `'\n'`, and contains
no other newline. -/
def midLineOk (cs : List Char) : Bool :=
  !cs.isEmpty && (cs.getLast? == some '\n')
    && cs.dropLast.all (fun c => c != '\n')

/-- A final `readlines` piece: nonempty and newline-free except possibly its
last character. -/
def lastLineOk (cs : List Char) : Bool :=
  !cs.isEmpty && cs.dropLast.all (fun c => c != '\n')

/-- The shape of any list produced by Python's `readlines`: every piece but
the last ends in its only newline; the last piece may or may not end with
one. -/
def pyLinesOk : List (List Char) → Bool
  | [] => true
  | [l] => lastLineOk l
  | l :: l' :: r => midLineOk l && pyLinesOk (l' :: r)

theorem pyLinesOk_single (l : List Char) : pyLinesOk [l] = lastLineOk l := rfl

theorem pyLinesOk_cons2 (l l' : List Char) (r : List (List Char)) :
    pyLinesOk (l :: l' :: r) = (midLineOk l && pyLinesOk (l' :: r)) := rfl

theorem splitKeepNl_cons_nl (cs : List Char) :
    splitKeepNl ('\n' :: cs) = ['\n'] :: splitKeepNl cs := by
  simp [splitKeepNl]

theorem splitKeepNl_cons_ne (c : Char) (cs : List Char) (hc : ¬ c = '\n') :
    splitKeepNl (c :: cs)
      = match splitKeepNl cs with
        | [] => [[c]]
        | l :: ls => (c :: l) :: ls := by
  simp [splitKeepNl, hc]

theorem splitKeepNl_mid (l cs : List Char) (h : midLineOk l = true) :
    splitKeepNl (l ++ cs) = l :: splitKeepNl cs := by
  induction l with
  | nil => simp [midLineOk] at h
  | cons c t ih =>
    cases t with
    | nil =>
      have hc : c = '\n' := by
        simp [midLineOk] at h
        exact h
      subst hc
      simp [splitKeepNl_cons_nl]
    | cons c' t' =>
      have hparts : ¬ c = '\n' ∧ midLineOk (c' :: t') = true := by
        simp [midLineOk, List.dropLast_cons₂, List.getLast?_cons_cons] at h ⊢
        tauto
      obtain ⟨hc, hmid⟩ := hparts
      rw [List.cons_append, splitKeepNl_cons_ne c _ hc, ih hmid]

theorem splitKeepNl_last (l : List Char) (h : lastLineOk l = true) :
    splitKeepNl l = [l] := by
  induction l with
  | nil => simp [lastLineOk] at h
  | cons c t ih =>
    cases t with
    | nil =>
      by_cases hc : c = '\n' <;> simp [splitKeepNl, hc]
    | cons c' t' =>
      have hparts : ¬ c = '\n' ∧ lastLineOk (c' :: t') = true := by
        simp [lastLineOk, List.dropLast_cons₂] at h ⊢
        tauto
      obtain ⟨hc, hlast⟩ := hparts
      rw [splitKeepNl_cons_ne c _ hc, ih hlast]

theorem splitKeepNl_flatten (ls : List (List Char)) (h : pyLinesOk ls = true) :
    splitKeepNl ls.flatten = ls := by
  induction ls with
  | nil => simp [splitKeepNl]
  | cons l t ih =>
    cases t with
    | nil =>
      rw [pyLinesOk_single] at h
      simp [splitKeepNl_last l h]
    | cons l' t' =>
      rw [pyLinesOk_cons2] at h
      have hm : midLineOk l = true := by
        simp at h
        exact h.1
      have hrest : pyLinesOk (l' :: t') = true := by
        simp at h
        exact h.2
      rw [show (l :: l' :: t').flatten = l ++ (l' :: t').flatten from rfl]
      rw [splitKeepNl_mid _ _ hm, ih hrest]

theorem join_data (ls : List String) :
    (String.join ls).data = (ls.map String.data).flatten := by
  have haux : ∀ (ms : List String) (acc : String),
      (ms.foldl (fun r s => r ++ s) acc).data
        = acc.data ++ (ms.map String.data).flatten := by
    intro ms
    induction ms with
    | nil =>
      intro acc
      simp
    | cons s t ih =>
      intro acc
      simp only [List.foldl_cons, List.map_cons, List.flatten_cons]
      rw [ih (acc ++ s), data_append]
      simp [List.append_assoc]
  rw [show String.join ls = ls.foldl (fun r s => r ++ s) "" from rfl]
  rw [haux]
  rfl

theorem pyReadlines_join (ls : List String)
    (h : pyLinesOk (ls.map String.data) = true) :
    pyReadlines (String.join ls) = ls := by
  rw [show pyReadlines (String.join ls)
      = (splitKeepNl (String.join ls).data).map (fun cs => String.mk cs) from rfl]
  rw [join_data, splitKeepNl_flatten _ h, List.map_map]
  have hfun : ((fun cs => String.mk cs) ∘ String.data) = id := by
    funext s
    exact mk_data s
  rw [hfun, List.map_id]

/-! ## Claim C8: line numbering -/

/-- C8: for a readable file whose text splits (as Python `readlines` does)
into the line list `ls`, the numbered content is exactly the concatenation
of the lines each prefixed with its 1-based index and the separator `": "`;
and with `line_numbers` and `codeblock` both set, the record built for such
a file wraps the *already numbered* content in the code fence — numbering
happens before any code-block wrapping. -/
theorem line_numbers_applied (ls : List String) (hne : ls ≠ [])
    (h : pyLinesOk (ls.map String.data) = true) :
    pyReadlines (String.join ls) = ls
    ∧ numberContent (String.join ls)
        = String.join ((ls.enum).map (fun p => toString (p.1 + 1) ++ ": " ++ p.2))
    ∧ ∀ (cfg : WalkCfg) (fp rp : String) (f : FileEnt),
        cfg.lineNumbers = true → cfg.codeblock = true →
        f.content = .ok (String.join ls) →
        fileSelected cfg (pjoin fp f.name) = true →
        processFile cfg fp rp f
          = ([{ path := rjoin rp f.name,
                content := numberContent (String.join ls),
                formatted_content :=
                  formatContent true (rjoin rp f.name)
                    ((pathSuffix f.name).drop 1)
                    (numberContent (String.join ls)) }], []) := by
  have h1 : pyReadlines (String.join ls) = ls := pyReadlines_join ls h
  have hnc : numberContent (String.join ls)
      = String.join (((pyReadlines (String.join ls)).enum).map
          (fun p => toString (p.1 + 1) ++ ": " ++ p.2)) := rfl
  have h2 : numberContent (String.join ls)
      = String.join ((ls.enum).map (fun p => toString (p.1 + 1) ++ ": " ++ p.2)) := by
    rw [hnc, h1]
  refine ⟨h1, h2, ?_⟩
  intro cfg fp rp f hln hcb hok hsel
  obtain ⟨l, t, rfl⟩ := List.exists_cons_of_ne_nil hne
  have hcne : numberContent (String.join (l :: t)) ≠ "" := by
    rw [h2]
    rw [show (l :: t).enum = (0, l) :: t.enumFrom 1 from rfl, List.map_cons]
    intro hc
    have hd := congrArg String.data hc
    rw [join_data] at hd
    have h2c : (": ".data : List Char) = [':', ' '] := rfl
    simp [data_append, h2c] at hd
  simp [processFile, hsel, get_file_contents, hok, hln, hcb, hcne]

/-- C8 witness: the two-line content `"a\nb"` (lines `"a\n"` and `"b"`)
numbers to `"1: a\n2: b"`, by `line_numbers_applied`. -/
theorem line_numbers_applied_w :
    pyLinesOk (["a\n", "b"].map String.data) = true
    ∧ numberContent (String.join ["a\n", "b"])
        = String.join (((["a\n", "b"] : List String).enum).map
            (fun p => toString (p.1 + 1) ++ ": " ++ p.2)) :=
  ⟨by decide, (line_numbers_applied ["a\n", "b"] (by decide) (by decide)).2.1⟩

end Code2Prompt
